import Mathlib

/-!
# Jabroni interpreter core — shallow embedding and verification

This development embeds the evaluation core of the Jabroni scripting
language (a small embedded, JavaScript-like, dynamically checked language
written in Rust) and proves properties of its value model, binding/scope
model and evaluator.

The repository contains two iterations of the crate:

* `src/value.rs`, `src/binding.rs`, `src/state.rs`, `src/utils.rs` — the
  iteration that contains the evaluator (`Jabroni::interpret_expression`,
  `Jabroni::interpret_statement`, `Jabroni::run_script`) together with a
  flat `BindingMap` (one `HashMap<String, Binding>`).
* `jabroni/src/value.rs`, `jabroni/src/binding.rs` — the later iteration of
  the value and binding model (`Value` with `Subroutine`/`Null`,
  `Value::compare` with an `allow_type_diff` flag, `Subroutine::call`,
  a layered `BindingMap` with `std::ptr::eq`-based `PartialEq`).

The embedding below translates each cited function from its source file.
The external parser (`jabroni.pest`, consumed through `pest`) is out of
scope of the core: following the documented parser contract, programs are
represented directly as the typed syntax trees the parser produces
(`Rule::ident`, `Rule::member_access`, `Rule::function_call`,
`Rule::ternary`, literals, `Rule::assignment`,
`Rule::comparison`/`Rule::sum`/`Rule::product` chains, and statement
rules), and an interpreted function body is stored as its parsed statement
list rather than as un-evaluated source text.

Machine integers (`i32`) are modelled as `Int` with explicit two's
complement wrapping where overflow matters (release-profile semantics of
Rust's `+=`/`-=`/`*=`).  Rust panics (`unimplemented!`) and potential
nonterminating recursion through interpreted calls are modelled by the
`none` result of a fuel-indexed interpreter; every defined behaviour is a
`some`.
-/

/-! ## Errors (`src/errors.rs`, `jabroni/src/errors.rs`)

Union of the two iterations' `JabroniError` enums (the later one adds
`InvalidArguments` and `Exception`). -/

inductive JabroniError : Type where
  | parse (msg : String)
  | type (msg : String)
  | reference (msg : String)
  | invalidArguments (msg : String)
  | doubleDefinition (msg : String)
  | exception (msg : String)
  deriving DecidableEq, Repr

/-! ## Syntax trees (parser contract)

The expression and statement node shapes consumed by
`Jabroni::interpret_expression` / `Jabroni::interpret_statement` in
`src/state.rs`.  Literal nodes carry the raw literal text (the evaluator
receives `pair.as_str()` and runs the literal constructors on it); chain
nodes carry the operator tokens as strings, exactly as the evaluator
dispatches on `operator.as_str()`. -/

mutual
inductive Expr : Type where
  | ident (name : String)
  | memberAccess (base : String) (field : Expr)
  | functionCall (callee : Expr) (args : List Expr)
  | ternary (cond thenBranch elseBranch : Expr)
  | stringLit (raw : String)
  | numericLit (raw : String)
  | booleanLit (raw : String)
  | nullLit
  | assignment (lhs : Expr) (op : String) (rhs : Expr)
  | chain (first : Expr) (rest : List (String × Expr))

inductive Stmt : Type where
  | expression (e : Expr)
  | block (stmts : List Stmt)
  | functionStatement (name : String) (params : List String) (body : List Stmt)
  | returnStatement (e : Expr)
end

/-! ## Values, bindings and subroutines

`Value` follows `jabroni/src/value.rs` (variants `Number`, `Boolean`,
`String`, `Object`, `Subroutine`, `Null`); `Binding` is identical in both
iterations; `BindingMap` here is the flat map of `src/binding.rs` that the
evaluator operates on (`HashMap<String, Binding>`, modelled as an
association list with `insert`-replaces semantics).

A `Subroutine` callback is either a host-native callback (identified by an
index interpreted by an environment of host functions) or an interpreted
function, which captures the declared parameter names and the parsed body,
exactly the data captured by the closure built in
`Jabroni::interpret_statement` for `Rule::function_statement`. -/

mutual
inductive Value : Type where
  | number (n : Int)
  | boolean (b : Bool)
  | string (s : String)
  | object (m : BindingMap)
  | subroutine (s : Subroutine)
  | null

inductive Binding : Type where
  | mk (mutable : Bool) (value : Value)

inductive BindingMap : Type where
  | mk (entries : List (String × Binding))

inductive Subroutine : Type where
  | mk (numberOfArgs : Option Nat) (callback : Callback)

inductive Callback : Type where
  | native (id : Nat)
  | interpreted (params : List String) (body : List Stmt)
end

def Binding.mutable : Binding → Bool
  | .mk m _ => m

def Binding.value : Binding → Value
  | .mk _ v => v

/-- `Binding::constant` (`src/binding.rs`, `jabroni/src/binding.rs`). -/
def Binding.constant (v : Value) : Binding := .mk false v

/-- `Binding::variable` (`variable` is a Lean keyword, hence the name). -/
def Binding.variableBinding (v : Value) : Binding := .mk true v

def Subroutine.numberOfArgs : Subroutine → Option Nat
  | .mk n _ => n

def Subroutine.callback : Subroutine → Callback
  | .mk _ c => c

def BindingMap.entries : BindingMap → List (String × Binding)
  | .mk es => es

/-- The empty map: `BindingMap::default()` (one empty `HashMap`). -/
def BindingMap.empty : BindingMap := .mk []

/-- Association-list lookup modelling `HashMap::get`. -/
def findEntry : List (String × Binding) → String → Option Binding
  | [], _ => none
  | (k, b) :: rest, ident => if k = ident then some b else findEntry rest ident

/-- Association-list insert modelling `HashMap::insert` (replace the
existing entry for the key, otherwise add one). -/
def setEntry : List (String × Binding) → String → Binding → List (String × Binding)
  | [], ident, b => [(ident, b)]
  | (k, b') :: rest, ident, b =>
      if k = ident then (ident, b) :: rest else (k, b') :: setEntry rest ident b

/-- `BindingMap::has` (`src/binding.rs`): `self.0.get(ident).is_some()`. -/
def BindingMap.has (m : BindingMap) (ident : String) : Bool :=
  (findEntry m.entries ident).isSome

/-- `BindingMap::set` (`src/binding.rs`): `self.0.insert(ident, value)` —
inserts unconditionally, replacing any existing binding for the name. -/
def BindingMap.set (m : BindingMap) (ident : String) (b : Binding) : BindingMap :=
  .mk (setEntry m.entries ident b)

/-- `BindingMap::get` (`src/binding.rs`): lookup, `ReferenceError` if the
identifier is absent. -/
def BindingMap.get (m : BindingMap) (ident : String) : Except JabroniError Binding :=
  match findEntry m.entries ident with
  | some b => .ok b
  | none => .error (.reference (ident ++ " does not exist"))

/-! ## Value operations (`jabroni/src/value.rs`) -/

/-- `std::mem::discriminant` on `Value`, as a numeric tag. -/
def Value.discriminant : Value → Nat
  | .number _ => 0
  | .boolean _ => 1
  | .string _ => 2
  | .object _ => 3
  | .subroutine _ => 4
  | .null => 5

/-- Two's complement wrapping into the `i32` range, the release-profile
behaviour of Rust's compound assignment operators on `i32`. -/
def i32wrap (z : Int) : Int := (z + 2 ^ 31) % 2 ^ 32 - 2 ^ 31

/-- `Value::unwrap_into_number`. -/
def Value.unwrapIntoNumber : Value → Except JabroniError Int
  | .number n => .ok n
  | _ => .error (.type "Expected number")

/-- `Value::add`: both sides must be `Number`, `+=` on the payload. -/
def Value.add (self v : Value) : Except JabroniError Value :=
  match self.unwrapIntoNumber with
  | .error e => .error e
  | .ok a =>
    match v.unwrapIntoNumber with
    | .error e => .error e
    | .ok b => .ok (.number (i32wrap (a + b)))

/-- `Value::subtract`. -/
def Value.subtract (self v : Value) : Except JabroniError Value :=
  match self.unwrapIntoNumber with
  | .error e => .error e
  | .ok a =>
    match v.unwrapIntoNumber with
    | .error e => .error e
    | .ok b => .ok (.number (i32wrap (a - b)))

/-- `Value::multiply`. -/
def Value.multiply (self v : Value) : Except JabroniError Value :=
  match self.unwrapIntoNumber with
  | .error e => .error e
  | .ok a =>
    match v.unwrapIntoNumber with
    | .error e => .error e
    | .ok b => .ok (.number (i32wrap (a * b)))

/-- `Value::inverse`: logical NOT, booleans only. -/
def Value.inverse : Value → Except JabroniError Value
  | .boolean b => .ok (.boolean (!b))
  | _ => .error (.type "Cannot inverse a non-boolean")

/-- `Value::compare` (`jabroni/src/value.rs` lines 194–226), returning the
new receiver value.  On a discriminant mismatch the receiver becomes
`Boolean(false)`, and that is the result when `allow_type_diff` is set;
otherwise the mismatch is a `TypeError`.  A `Null` operand with
`allow_type_diff` unset is a `TypeError`.  Remaining same-tag cases compare
payloads (`Null` against `Null` compares as `true`); `Object` and
`Subroutine` payloads are not comparable. -/
def Value.compare (self v : Value) (allowTypeDiff : Bool) :
    Except JabroniError Value :=
  if self.discriminant ≠ v.discriminant then
    if allowTypeDiff then .ok (.boolean false)
    else .error (.type "Cannot compare between values of different types")
  else if (match v with | .null => true | _ => false) = true ∧ allowTypeDiff = false then
    .error (.type "Cannot compare null values")
  else
    match self, v with
    | .boolean a, .boolean b => .ok (.boolean (a == b))
    | .number a, .number b => .ok (.boolean (a == b))
    | .string a, .string b => .ok (.boolean (a == b))
    | .null, _ => .ok (.boolean true)
    | _, _ => .error (.type "Cannot compare values of this type")

/-- `Value::compare_inequality`: numbers only, strict type match. -/
def Value.compareInequality (self v : Value) (comparator : Int → Int → Bool) :
    Except JabroniError Value :=
  if self.discriminant ≠ v.discriminant then
    .error (.type "Cannot compare between values of different types")
  else
    match self, v with
    | .number a, .number b => .ok (.boolean (comparator a b))
    | _, _ => .error (.type "Cannot compare values of this type")

/-! ## Numeric literals (`Value::from_numeric_literal`)

`literal.parse::<i32>()`: an optional single leading sign, then a nonempty
run of decimal digits, rejected when the signed value does not fit in
`i32`. -/

def digitVal (c : Char) : Option Nat :=
  if '0' ≤ c ∧ c ≤ '9' then some (c.toNat - '0'.toNat) else none

def parseDigitsAux : List Char → Nat → Option Nat
  | [], acc => some acc
  | c :: rest, acc =>
    match digitVal c with
    | none => none
    | some d => parseDigitsAux rest (10 * acc + d)

/-- The digit-run-and-range part of `str::parse::<i32>`: a nonempty run
of decimal digits, the value taken with the given sign, rejected when it
does not fit in `i32`. -/
def parseSigned (sign : Int) (l : List Char) : Except JabroniError Int :=
  if l = [] then .error (.parse "cannot parse integer from empty string")
  else
    match parseDigitsAux l 0 with
    | none => .error (.parse "invalid digit found in string")
    | some n =>
      let v : Int := sign * n
      if -(2 ^ 31) ≤ v ∧ v < 2 ^ 31 then .ok v
      else .error (.parse "number too large to fit in target type")

/-- `str::parse::<i32>` on the literal text: an optional single leading
sign character, then a nonempty digit run, then the `i32` range check. -/
def parseI32 (s : String) : Except JabroniError Int :=
  match s.data with
  | [] => .error (.parse "cannot parse integer from empty string")
  | c :: rest =>
    if c = '-' then parseSigned (-1) rest
    else if c = '+' then parseSigned 1 rest
    else parseSigned 1 (c :: rest)

/-- `Value::from_numeric_literal` (`jabroni/src/value.rs` lines 119–126). -/
def Value.fromNumericLiteral (literal : String) : Except JabroniError Value :=
  match parseI32 literal with
  | .error e => .error e
  | .ok n => .ok (.number n)

/-- `Value::from_boolean_literal`. -/
def Value.fromBooleanLiteral (literal : String) : Except JabroniError Value :=
  if literal = "true" then .ok (.boolean true)
  else if literal = "false" then .ok (.boolean false)
  else .error (.parse ("Could not form boolean literal from " ++ literal))

/-! ## String unquoting (`src/utils.rs`, `unquote`) -/

/-- Number of UTF-8 bytes of a character; `str::len` counts bytes. -/
def charUtf8Size (c : Char) : Nat :=
  if c.toNat < 0x80 then 1
  else if c.toNat < 0x800 then 2
  else if c.toNat < 0x10000 then 3
  else 4

/-- `str::len`: the UTF-8 byte length. -/
def utf8Length (s : List Char) : Nat := (s.map charUtf8Size).sum

/-- The escape-translation table of `unquote`'s backslash branch. -/
def escapeCharResult (c : Char) : Option Char :=
  if c = 'n' then some '\n'
  else if c = 't' then some '\t'
  else if c = 'r' then some '\r'
  else if c = '\\' ∨ c = '\'' ∨ c = '"' then some c
  else none

/-- The character-consuming loop of `unquote` (`src/utils.rs` lines
19–55): `terminator` is the opening quote, `backslash` records whether the
previous character was an unconsumed backslash, `output` is the translated
content so far. -/
def unquoteLoop (terminator : Char) :
    List Char → Bool → List Char → Except JabroniError (List Char)
  | [], _, _ => .error (.parse "String parsing unexpectedly cut short")
  | c :: rest, backslash, output =>
    if c = '\\' ∧ backslash = false then unquoteLoop terminator rest true output
    else if c = terminator ∧ backslash = false then
      if rest.isEmpty then .ok output
      else .error (.parse "While parsing string, met terminator before end of string")
    else if backslash then
      match escapeCharResult c with
      | some e => unquoteLoop terminator rest false (output ++ [e])
      | none => .error (.parse "Found unknown escaped sequence while parsing string")
    else unquoteLoop terminator rest false (output ++ [c])

/-- `unquote` (`src/utils.rs` lines 3–56) over the character list of the
input string. -/
def unquote (s : List Char) : Except JabroniError (List Char) :=
  if utf8Length s < 2 then
    .error (.parse "Attempted to unquote an already unquoted string")
  else
    match s with
    | [] => .error (.parse "Attempted to unquote an already unquoted string")
    | terminator :: rest =>
      if terminator ≠ '"' ∧ terminator ≠ '\'' then
        .error (.parse "Attempted to unquote an already unquoted string")
      else unquoteLoop terminator rest false []

/-- `Value::from_string_literal`. -/
def Value.fromStringLiteral (literal : String) : Except JabroniError Value :=
  match unquote literal.data with
  | .error e => .error e
  | .ok cs => .ok (.string (String.mk cs))

/-! ## Decimal rendering

Used by `Display for Value` on `Number` (`write!("{}", i32)`) and to state
properties about the decimal text of an integer. -/

/-- Digits of `n`, most significant first; the first argument is
structural-recursion fuel (any fuel above the digit count is enough). -/
def natDigitsAux : Nat → Nat → List Char
  | 0, _ => []
  | fuel + 1, n =>
    if n < 10 then [Nat.digitChar n]
    else natDigitsAux fuel (n / 10) ++ [Nat.digitChar (n % 10)]

def natDigits (n : Nat) : List Char := natDigitsAux (n + 1) n

/-- The canonical signed decimal text of an integer, as Rust's `Display`
for `i32` renders it. -/
def intDecimal (a : Int) : String :=
  if a < 0 then String.mk ('-' :: natDigits a.natAbs)
  else String.mk (natDigits a.natAbs)

/-- `impl Display for Value` (`jabroni/src/value.rs` lines 265–277):
`Number`/`Boolean`/`String`/`Null` render naturally; `Object` renders as
the token `"[function]"` and `Subroutine` as `"[object]"` (the source
carries the comment "These aren't consistent with JavaScript"). -/
def Value.display : Value → String
  | .number n => intDecimal n
  | .boolean b => if b then "true" else "false"
  | .string s => s
  | .null => "null"
  | .object _ => "[function]"
  | .subroutine _ => "[object]"

/-! ## Binding mutation (`Binding::set_value`, both `binding.rs` files,
lines 54–69 in `jabroni/src/binding.rs`) -/

/-- `Binding::set_value`: a `TypeError` when the new value's discriminant
differs from the stored value's; then a `TypeError` when the binding is
immutable; otherwise the stored value is replaced. -/
def Binding.setValue (b : Binding) (v : Value) : Except JabroniError Binding :=
  if b.value.discriminant ≠ v.discriminant then
    .error (.type "Type mismatch in binding assignment")
  else if b.mutable = false then
    .error (.type "Cannot mutably access binding because it is constant")
  else .ok (.mk b.mutable v)

/-! ## Subroutine call protocol (`jabroni/src/value.rs` lines 56–67)

`Subroutine::call(context, args)` of the later iteration.  The callback is
arbitrary host logic, so the embedding abstracts its meaning as an
explicit interpretation argument `runcb`; `call` consults it only after
the arity gate passes. -/

def Subroutine.call
    (runcb : Callback → BindingMap → List Value → Except JabroniError Value)
    (s : Subroutine) (context : BindingMap) (args : List Value) :
    Except JabroniError Value :=
  match s.numberOfArgs with
  | some n =>
    if args.length ≠ n then
      .error (.invalidArguments "Incorrect number of arguments")
    else runcb s.callback context args
  | none => runcb s.callback context args

/-! ## The evaluator (`src/state.rs`)

`Jabroni::interpret_expression`, `Jabroni::interpret_statement` and
`Jabroni::run_script` are mutually recursive with the callbacks of
interpreted functions, which can diverge (a subroutine passed to itself as
an argument can call itself forever), so the embedding is a single
fuel-indexed step function `runI` over a task sum type, structurally
recursive on the fuel.  `none` means "no result within the fuel budget, or
a Rust panic (`unimplemented!`)"; every defined outcome is `some`.

Host-native callbacks (registered by the embedding host) are interpreted
by an environment `env : Nat → List Value → Except JabroniError Value`;
in this iteration a native callback receives only the evaluated argument
list (`callback(&mut args)`). -/

/-- `Jabroni::interpret_lvalue` used read-only (resolution of the callee of
a function call and of a member-access expression): identifier → direct
lookup; member access → the base must resolve to an `Object`, recurse into
its map; any other node shape is a `ParseError`. -/
def interpretLvalueGet : Expr → BindingMap → Except JabroniError Binding
  | .ident name, m => m.get name
  | .memberAccess base field, m =>
    match m.get base with
    | .error e => .error e
    | .ok b =>
      match b.value with
      | .object inner => interpretLvalueGet field inner
      | _ => .error (.type "Not an object")
  | _, _ => .error (.parse "Cannot make out lvalue expression")

/-- `Jabroni::interpret_lvalue` followed by `Binding::set_value` on the
resolved binding (the assignment path, `src/state.rs` lines 144–158): the
functional image of mutating the binding in place through `get_mut`. -/
def interpretLvalueSet : Expr → Value → BindingMap → Except JabroniError BindingMap
  | .ident name, v, m =>
    match m.get name with
    | .error e => .error e
    | .ok b =>
      match b.setValue v with
      | .error e => .error e
      | .ok b' => .ok (m.set name b')
  | .memberAccess base field, v, m =>
    match m.get base with
    | .error e => .error e
    | .ok b =>
      match b.value with
      | .object inner =>
        match interpretLvalueSet field v inner with
        | .error e => .error e
        | .ok inner' => .ok (m.set base (.mk b.mutable (.object inner')))
      | _ => .error (.type "Not an object")
  | _, _, _ => .error (.parse "Cannot make out lvalue expression")

/-- The binary-operator dispatch of the `Rule::comparison`/`Rule::sum`/
`Rule::product` fold (`src/state.rs` lines 159–180): `==` is
`compare(operand, false)`, `===` is `compare(operand, true)`, then `+`,
`-`, `*`; any other operator token is `unimplemented!` (modelled as
`none`). -/
def applyOperator (op : String) (v w : Value) : Option (Except JabroniError Value) :=
  if op = "==" then some (v.compare w false)
  else if op = "===" then some (v.compare w true)
  else if op = "+" then some (v.add w)
  else if op = "-" then some (v.subtract w)
  else if op = "*" then some (v.multiply w)
  else none

/-- The parameter frame built by an interpreted-function callback
(`src/state.rs` lines 218–225): a brand-new state (`Jabroni::new()`) whose
bindings are exactly the declared parameters, each bound as a constant to
the corresponding already-evaluated argument value. -/
def paramBindings (params : List String) (args : List Value) : BindingMap :=
  (params.zip args).foldl (fun m pa => m.set pa.1 (Binding.constant pa.2)) .empty

/-- The work items of the evaluator: expression evaluation, left-to-right
argument-list evaluation, the operator-chain fold, statement execution,
statement-list execution (a script or block, carrying the value of the
last statement so far), and callback invocation. -/
inductive ITask : Type where
  | expr (e : Expr) (st : BindingMap)
  | exprList (es : List Expr) (st : BindingMap)
  | chainRest (v : Value) (rest : List (String × Expr)) (st : BindingMap)
  | stmt (s : Stmt) (st : BindingMap)
  | stmtList (l : List Stmt) (v : Value) (st : BindingMap)
  | callback (cb : Callback) (args : List Value)

/-- Results of the corresponding work items. -/
inductive Outcome : Type where
  | value (v : Value) (st : BindingMap)
  | values (vs : List Value) (st : BindingMap)
  | retVal (v : Value)

/-- The fuel-indexed evaluator.  Each case is the direct translation of the
corresponding `match` arm of `Jabroni::interpret_expression` /
`Jabroni::interpret_statement` / `Jabroni::run_script` and of the
interpreted-function closure of `Rule::function_statement`
(`src/state.rs`).  State (`self.bindings`) is threaded explicitly. -/
def runI (env : Nat → List Value → Except JabroniError Value) :
    Nat → ITask → Option (Except JabroniError Outcome)
  | 0, _ => none
  | n + 1, task =>
    match task with
    | .expr e st =>
      match e with
      | .ident name =>
        match st.get name with
        | .error er => some (.error er)
        | .ok b => some (.ok (.value b.value st))
      | .memberAccess base field =>
        match interpretLvalueGet (.memberAccess base field) st with
        | .error er => some (.error er)
        | .ok b => some (.ok (.value b.value st))
      | .functionCall callee args =>
        match interpretLvalueGet callee st with
        | .error er => some (.error er)
        | .ok b =>
          match b.value with
          | .subroutine sub =>
            match runI env n (.exprList args st) with
            | none => none
            | some (.error er) => some (.error er)
            | some (.ok (.values vs st')) =>
              match runI env n (.callback sub.callback vs) with
              | none => none
              | some (.error er) => some (.error er)
              | some (.ok (.retVal v)) => some (.ok (.value v st'))
              | some (.ok _) => none
            | some (.ok _) => none
          | _ => some (.error (.type "Not a function"))
      | .ternary cond thenBranch elseBranch =>
        match runI env n (.expr cond st) with
        | none => none
        | some (.error er) => some (.error er)
        | some (.ok (.value v st')) =>
          match v with
          | .boolean true => runI env n (.expr thenBranch st')
          | .boolean false => runI env n (.expr elseBranch st')
          | _ => some (.error (.type "Ternary condition must be boolean"))
        | some (.ok _) => none
      | .stringLit raw =>
        match Value.fromStringLiteral raw with
        | .error er => some (.error er)
        | .ok v => some (.ok (.value v st))
      | .numericLit raw =>
        match Value.fromNumericLiteral raw with
        | .error er => some (.error er)
        | .ok v => some (.ok (.value v st))
      | .booleanLit raw =>
        match Value.fromBooleanLiteral raw with
        | .error er => some (.error er)
        | .ok v => some (.ok (.value v st))
      | .nullLit => some (.ok (.value .null st))
      | .assignment lhs op rhs =>
        match runI env n (.expr rhs st) with
        | none => none
        | some (.error er) => some (.error er)
        | some (.ok (.value v st')) =>
          if op = "=" then
            match interpretLvalueSet lhs v st' with
            | .error er => some (.error er)
            | .ok st'' => some (.ok (.value .null st''))
          else none
        | some (.ok _) => none
      | .chain first rest =>
        match runI env n (.expr first st) with
        | none => none
        | some (.error er) => some (.error er)
        | some (.ok (.value v st')) => runI env n (.chainRest v rest st')
        | some (.ok _) => none
    | .exprList es st =>
      match es with
      | [] => some (.ok (.values [] st))
      | e :: rest =>
        match runI env n (.expr e st) with
        | none => none
        | some (.error er) => some (.error er)
        | some (.ok (.value v st')) =>
          match runI env n (.exprList rest st') with
          | none => none
          | some (.error er) => some (.error er)
          | some (.ok (.values vs st'')) => some (.ok (.values (v :: vs) st''))
          | some (.ok _) => none
        | some (.ok _) => none
    | .chainRest v rest st =>
      match rest with
      | [] => some (.ok (.value v st))
      | (op, e) :: rest' =>
        match runI env n (.expr e st) with
        | none => none
        | some (.error er) => some (.error er)
        | some (.ok (.value w st')) =>
          match applyOperator op v w with
          | none => none
          | some (.error er) => some (.error er)
          | some (.ok v') => runI env n (.chainRest v' rest' st')
        | some (.ok _) => none
    | .stmt s st =>
      match s with
      | .expression e =>
        match runI env n (.expr e st) with
        | none => none
        | some (.error er) => some (.error er)
        | some (.ok (.value _ st')) => some (.ok (.value .null st'))
        | some (.ok _) => none
      | .block stmts => runI env n (.stmtList stmts .null st)
      | .functionStatement name params body =>
        some (.ok (.value .null
          (st.set name (Binding.constant (.subroutine
            (.mk (some (params.length % 256)) (.interpreted params body)))))))
      | .returnStatement e => runI env n (.expr e st)
    | .stmtList l v st =>
      match l with
      | [] => some (.ok (.value v st))
      | s :: rest =>
        match runI env n (.stmt s st) with
        | none => none
        | some (.error er) => some (.error er)
        | some (.ok (.value v' st')) => runI env n (.stmtList rest v' st')
        | some (.ok _) => none
    | .callback cb args =>
      match cb with
      | .native id =>
        match env id args with
        | .error er => some (.error er)
        | .ok v => some (.ok (.retVal v))
      | .interpreted params body =>
        if args.length ≠ params.length then
          some (.error (.invalidArguments "Incorrect number of arguments"))
        else
          match runI env n (.stmtList body .null (paramBindings params args)) with
          | none => none
          | some (.error er) => some (.error er)
          | some (.ok (.value v _)) => some (.ok (.retVal v))
          | some (.ok _) => none

/-- `Jabroni::interpret_expression` as a function of fuel, expression and
current bindings. -/
def interpretExpression (env : Nat → List Value → Except JabroniError Value)
    (fuel : Nat) (e : Expr) (st : BindingMap) :
    Option (Except JabroniError (Value × BindingMap)) :=
  match runI env fuel (.expr e st) with
  | none => none
  | some (.error er) => some (.error er)
  | some (.ok (.value v st')) => some (.ok (v, st'))
  | some (.ok _) => none

/-- `Jabroni::interpret_statement`. -/
def interpretStatement (env : Nat → List Value → Except JabroniError Value)
    (fuel : Nat) (s : Stmt) (st : BindingMap) :
    Option (Except JabroniError (Value × BindingMap)) :=
  match runI env fuel (.stmt s st) with
  | none => none
  | some (.error er) => some (.error er)
  | some (.ok (.value v st')) => some (.ok (v, st'))
  | some (.ok _) => none

/-- `Jabroni::run_script` on an already-parsed statement list: execute the
statements in order starting from value `Null`, returning the value of the
last statement. -/
def runScript (env : Nat → List Value → Except JabroniError Value)
    (fuel : Nat) (stmts : List Stmt) (st : BindingMap) :
    Option (Except JabroniError (Value × BindingMap)) :=
  match runI env fuel (.stmtList stmts .null st) with
  | none => none
  | some (.error er) => some (.error er)
  | some (.ok (.value v st')) => some (.ok (v, st'))
  | some (.ok _) => none

/-- The closure built for an interpreted function by
`Jabroni::interpret_statement` on `Rule::function_statement`
(`src/state.rs` lines 211–228): check the argument count against the
declared parameter list, then run the body as a script against a fresh
state seeded only with the parameters as constants. -/
def functionCallback (env : Nat → List Value → Except JabroniError Value)
    (fuel : Nat) (params : List String) (body : List Stmt) (args : List Value) :
    Option (Except JabroniError Value) :=
  match runI env fuel (.callback (.interpreted params body) args) with
  | none => none
  | some (.error er) => some (.error er)
  | some (.ok (.retVal v)) => some (.ok v)
  | some (.ok _) => none

/-- A host environment with no registered native behaviour. -/
def trivialEnv : Nat → List Value → Except JabroniError Value :=
  fun _ _ => .ok .null

/-! ## The host embedding API (`src/state.rs` lines 14–47) -/

/-- The interpreter state: `struct Jabroni { bindings: BindingMap }`. -/
structure Jabroni where
  bindings : BindingMap

/-- `Jabroni::new()` (`Default`). -/
def Jabroni.empty : Jabroni := ⟨.empty⟩

/-- `Jabroni::define_binding`: `DoubleDefinitionError` when the name is
already bound, otherwise insert. -/
def Jabroni.defineBinding (j : Jabroni) (ident : String) (v : Value)
    (mutable : Bool) : Except JabroniError Jabroni :=
  if j.bindings.has ident then
    .error (.doubleDefinition
      ("Cannot define " ++ ident ++ " because it has already been defined"))
  else .ok ⟨j.bindings.set ident (.mk mutable v)⟩

/-- `Jabroni::define_constant`. -/
def Jabroni.defineConstant (j : Jabroni) (ident : String) (v : Value) :
    Except JabroniError Jabroni :=
  j.defineBinding ident v false

/-- `Jabroni::define_variable`. -/
def Jabroni.defineVariable (j : Jabroni) (ident : String) (v : Value) :
    Except JabroniError Jabroni :=
  j.defineBinding ident v true

/-- `Jabroni::update_variable`: resolve through `get_mut` then
`set_value`. -/
def Jabroni.updateVariable (j : Jabroni) (ident : String) (v : Value) :
    Except JabroniError Jabroni :=
  match j.bindings.get ident with
  | .error e => .error e
  | .ok b =>
    match b.setValue v with
    | .error e => .error e
    | .ok b' => .ok ⟨j.bindings.set ident b'⟩

/-! ## The later iteration's `BindingMap` and derived `PartialEq`
(`jabroni/src/binding.rs` lines 72–153, `jabroni/src/value.rs` lines
75–96)

The later iteration's `BindingMap` is a stack of `HashMap` frames, and its
`PartialEq` is `std::ptr::eq(self, other)`: two maps compare equal exactly
when the two references point at the same live object, independently of
the frames' contents.  The embedding models the heap address of each live
`BindingMap` object as an explicit `addr : Nat`: distinct live objects
have distinct addresses, and `Clone` (a `#[derive(Clone)]` deep copy into
fresh memory) yields the same frames at a fresh address.

`RcValue` mirrors the derived `PartialEq` of `Value`: payload equality for
`Number`/`Boolean`/`String`, the pointer equality above for `Object`, and
for `Subroutine` the hand-written `PartialEq` (equal arity and
`Rc::ptr_eq` of the callback, the latter modelled as an `Rc` allocation
address). -/

mutual
inductive RcValue : Type where
  | number (n : Int)
  | boolean (b : Bool)
  | string (s : String)
  | object (m : RcBindingMap)
  | subroutine (numberOfArgs : Option Nat) (rcAddr : Nat)
  | null

inductive RcBinding : Type where
  | mk (mutable : Bool) (value : RcValue)

inductive RcBindingMap : Type where
  | mk (addr : Nat) (maps : List (List (String × RcBinding)))
end

def RcBindingMap.addr : RcBindingMap → Nat
  | .mk a _ => a

def RcBindingMap.maps : RcBindingMap → List (List (String × RcBinding))
  | .mk _ f => f

/-- `impl PartialEq for BindingMap` (`jabroni/src/binding.rs` lines
149–153): `std::ptr::eq(self, other)`. -/
def RcBindingMap.ptrEq (x y : RcBindingMap) : Bool := x.addr == y.addr

/-- `#[derive(Clone)]` for `BindingMap`: a copy of the frames living at a
fresh address (`newAddr`, distinct from the address of every live object,
in particular from `m.addr` while `m` is alive). -/
def RcBindingMap.cloneAt (m : RcBindingMap) (newAddr : Nat) : RcBindingMap :=
  .mk newAddr m.maps

/-- The `#[derive(PartialEq)]` equality of the later iteration's `Value`:
structural on `Number`/`Boolean`/`String`/`Null` payloads, but delegating
to the pointer-based `BindingMap::eq` for `Object` and to
`(arity, Rc::ptr_eq)` for `Subroutine`. -/
def RcValue.beq : RcValue → RcValue → Bool
  | .number a, .number b => a == b
  | .boolean a, .boolean b => a == b
  | .string a, .string b => a == b
  | .object m, .object m' => m.ptrEq m'
  | .subroutine n a, .subroutine n' a' => n == n' && a == a'
  | .null, .null => true
  | _, _ => false

/-! ## Specification-side definitions for `unquote`

`escapeBody` renders arbitrary content as the body of a quoted literal
with terminator `q`: backslashes and the terminator are escaped, the three
control characters are rendered through their named escapes, every other
character is emitted verbatim.  It is the specification-level inverse used
to state what `unquote` returns. -/

def escapeContentChar (q c : Char) : List Char :=
  if c = '\\' ∨ c = q then ['\\', c]
  else if c = '\n' then ['\\', 'n']
  else if c = '\t' then ['\\', 't']
  else if c = '\r' then ['\\', 'r']
  else [c]

def escapeBody (q : Char) : List Char → List Char
  | [] => []
  | c :: rest => escapeContentChar q c ++ escapeBody q rest

/-- A result that is a `ParseError` with some message. -/
def isParseError {α : Type} (r : Except JabroniError α) : Prop :=
  ∃ msg, r = .error (.parse msg)

/-! ## General lemmas -/

theorem findEntry_setEntry_self (es : List (String × Binding)) (k : String) (b : Binding) :
    findEntry (setEntry es k b) k = some b := by
  induction es with
  | nil => simp [setEntry, findEntry]
  | cons hd tl ih =>
    obtain ⟨k', b'⟩ := hd
    by_cases h : k' = k
    · simp [setEntry, findEntry, h]
    · simp [setEntry, findEntry, h, ih]

theorem findEntry_setEntry_ne (es : List (String × Binding)) (k x : String) (b : Binding)
    (h : k ≠ x) : findEntry (setEntry es k b) x = findEntry es x := by
  induction es with
  | nil => simp [setEntry, findEntry, h]
  | cons hd tl ih =>
    obtain ⟨k', b'⟩ := hd
    by_cases h' : k' = k
    · subst h'
      simp [setEntry, findEntry, h]
    · simp [setEntry, findEntry, h', ih]

theorem BindingMap.get_set_self (m : BindingMap) (k : String) (b : Binding) :
    (m.set k b).get k = .ok b := by
  simp [BindingMap.get, BindingMap.set, BindingMap.entries, findEntry_setEntry_self]

theorem BindingMap.get_set_ne (m : BindingMap) (k x : String) (b : Binding) (h : k ≠ x) :
    (m.set k b).get x = m.get x := by
  simp [BindingMap.get, BindingMap.set, BindingMap.entries,
    findEntry_setEntry_ne _ _ _ _ h]

theorem interpretExpression_eq_ok {env : Nat → List Value → Except JabroniError Value}
    {fuel : Nat} {e : Expr} {st : BindingMap} {v : Value} {st' : BindingMap} :
    interpretExpression env fuel e st = some (.ok (v, st')) ↔
    runI env fuel (.expr e st) = some (.ok (.value v st')) := by
  unfold interpretExpression
  rcases hr : runI env fuel (.expr e st) with _ | r
  · simp
  · rcases r with er | o
    · simp
    · rcases o with ⟨w, stw⟩ | ⟨vs, stv⟩ | w <;> simp

theorem i32wrap_eq_self {z : Int} (h1 : -(2 ^ 31) ≤ z) (h2 : z < 2 ^ 31) :
    i32wrap z = z := by
  unfold i32wrap
  omega

/-! ## Parameter-frame lemmas -/

theorem get_constantFold_not_mem (l : List (String × Value)) (m : BindingMap) (x : String)
    (h : x ∉ l.map Prod.fst) :
    (l.foldl (fun m pa => m.set pa.1 (Binding.constant pa.2)) m).get x = m.get x := by
  induction l generalizing m with
  | nil => rfl
  | cons hd tl ih =>
    obtain ⟨k, v⟩ := hd
    simp only [List.map_cons, List.mem_cons] at h
    push_neg at h
    simp only [List.foldl_cons]
    rw [ih _ h.2, BindingMap.get_set_ne _ _ _ _ (fun hk => h.1 hk.symm)]

theorem get_constantFold_mem (l : List (String × Value)) :
    ∀ (m : BindingMap) (p : String) (a : Value), (p, a) ∈ l →
    (l.map Prod.fst).Nodup →
    (l.foldl (fun m pa => m.set pa.1 (Binding.constant pa.2)) m).get p
      = .ok (Binding.constant a) := by
  induction l with
  | nil => intro m p a hmem _; cases hmem
  | cons hd tl ih =>
    obtain ⟨k, v⟩ := hd
    intro m p a hmem hnd
    simp only [List.map_cons, List.nodup_cons] at hnd
    rcases List.mem_cons.mp hmem with heq | htl
    · injection heq with h1 h2
      subst h1; subst h2
      simp only [List.foldl_cons]
      rw [get_constantFold_not_mem _ _ _ hnd.1, BindingMap.get_set_self]
    · simp only [List.foldl_cons]
      exact ih _ _ _ htl hnd.2

theorem paramBindings_get_not_mem (params : List String) (args : List Value) (x : String)
    (h : x ∉ params) :
    (paramBindings params args).get x = .error (.reference (x ++ " does not exist")) := by
  unfold paramBindings
  rw [get_constantFold_not_mem]
  · rfl
  · intro hmem
    obtain ⟨⟨p, a⟩, hpa, hfst⟩ := List.mem_map.mp hmem
    exact h (hfst ▸ (List.of_mem_zip hpa).1)

theorem paramBindings_get_mem (params : List String) (args : List Value) (p : String)
    (a : Value) (hnd : params.Nodup) (hlen : args.length = params.length)
    (hmem : (p, a) ∈ params.zip args) :
    (paramBindings params args).get p = .ok (Binding.constant a) := by
  unfold paramBindings
  apply get_constantFold_mem _ _ _ _ hmem
  rw [List.map_fst_zip _ _ (le_of_eq hlen.symm)]
  exact hnd

/-! ## Claim C9 -/

/-- Claim C9: `Display for Value` renders `Number`, `Boolean` and `String`
as their natural text and `Null` as the text `"null"`, but renders every
`Object` value as the fixed token `"[function]"` and every `Subroutine`
value as the fixed token `"[object]"` — the two placeholder tokens are
swapped relative to their variant names. -/
theorem display_placeholder_tokens_swapped :
    (∀ n : Int, (Value.number n).display = intDecimal n)
    ∧ (∀ b : Bool, (Value.boolean b).display = if b then "true" else "false")
    ∧ (∀ s : String, (Value.string s).display = s)
    ∧ Value.null.display = "null"
    ∧ (∀ m : BindingMap, (Value.object m).display = "[function]")
    ∧ (∀ s : Subroutine, (Value.subroutine s).display = "[object]")
    ∧ "[function]" ≠ "[object]" :=
  ⟨fun _ => rfl, fun _ => rfl, fun _ => rfl, rfl, fun _ => rfl, fun _ => rfl, by decide⟩

/-! ## Claim C5 -/

/-- Claim C5: for every `Subroutine` with fixed arity `n` and every
argument list, `Subroutine::call` fails with an `InvalidArgumentsError`
when the argument count differs from `n`, without invoking the callback
(the result is the same for every callback interpretation `runcb`);
otherwise it invokes the callback with the given context and arguments and
returns its result.  A variadic subroutine (`arity = None`) accepts every
argument count.  Interpreted functions perform the same count check
against their declared parameter list inside their callback. -/
theorem subroutine_call_arity_protocol :
    (∀ (runcb : Callback → BindingMap → List Value → Except JabroniError Value)
       (s : Subroutine) (ctx : BindingMap) (args : List Value) (n : Nat),
       s.numberOfArgs = some n → args.length ≠ n →
       Subroutine.call runcb s ctx args
         = .error (.invalidArguments "Incorrect number of arguments"))
    ∧ (∀ (runcb : Callback → BindingMap → List Value → Except JabroniError Value)
       (s : Subroutine) (ctx : BindingMap) (args : List Value) (n : Nat),
       s.numberOfArgs = some n → args.length = n →
       Subroutine.call runcb s ctx args = runcb s.callback ctx args)
    ∧ (∀ (runcb : Callback → BindingMap → List Value → Except JabroniError Value)
       (s : Subroutine) (ctx : BindingMap) (args : List Value),
       s.numberOfArgs = none →
       Subroutine.call runcb s ctx args = runcb s.callback ctx args)
    ∧ (∀ (env : Nat → List Value → Except JabroniError Value) (fuel : Nat)
       (params : List String) (body : List Stmt) (args : List Value),
       args.length ≠ params.length →
       functionCallback env (fuel + 1) params body args
         = some (.error (.invalidArguments "Incorrect number of arguments"))) := by
  refine ⟨?_, ?_, ?_, ?_⟩
  · intro runcb s ctx args n h1 h2
    unfold Subroutine.call
    rw [h1]
    simp [h2]
  · intro runcb s ctx args n h1 h2
    unfold Subroutine.call
    rw [h1]
    simp [h2]
  · intro runcb s ctx args h1
    unfold Subroutine.call
    rw [h1]
  · intro env fuel params body args h
    unfold functionCallback
    simp [runI, h]

/-- Witness for the arity-protocol theorem, at concrete subroutines and
argument lists. -/
theorem subroutine_call_arity_protocol_witness :
    Subroutine.call (fun _ _ _ => .ok .null) (.mk (some 2) (.native 0)) .empty [.null]
      = .error (.invalidArguments "Incorrect number of arguments")
    ∧ Subroutine.call (fun _ _ _ => .ok .null) (.mk (some 1) (.native 0)) .empty [.null]
      = .ok .null
    ∧ Subroutine.call (fun _ _ _ => .ok .null) (.mk none (.native 0)) .empty []
      = .ok .null
    ∧ functionCallback trivialEnv 1 ["x"] [] []
      = some (.error (.invalidArguments "Incorrect number of arguments")) :=
  ⟨subroutine_call_arity_protocol.1 _ _ _ _ 2 rfl (by decide),
   (subroutine_call_arity_protocol.2.1 _ (.mk (some 1) (.native 0)) _ _ 1 rfl
     (by decide)).trans rfl,
   (subroutine_call_arity_protocol.2.2.1 _ (.mk none (.native 0)) _ _ rfl).trans rfl,
   subroutine_call_arity_protocol.2.2.2 trivialEnv 0 ["x"] [] [] (by decide)⟩

/-! ## Claim C10 -/

/-- Claim C10: the later iteration's `BindingMap` equality (and therefore
equality of `Object` values through `Value`'s derived `PartialEq`) is
pointer identity, not structural equality: two maps compare equal exactly
when they are the same live in-memory object (same address), the frame
contents are ignored entirely, and a clone of an `Object` value compares
unequal to the original even though the cloned frames are identical. -/
theorem bindingmap_partialeq_is_pointer_identity :
    (∀ x y : RcBindingMap, x.ptrEq y = true ↔ x.addr = y.addr)
    ∧ (∀ (m : RcBindingMap) (newAddr : Nat), newAddr ≠ m.addr →
        RcValue.beq (.object m) (.object (m.cloneAt newAddr)) = false
        ∧ (m.cloneAt newAddr).maps = m.maps)
    ∧ (∀ (a : Nat) (f f' : List (List (String × RcBinding))),
        RcValue.beq (.object (.mk a f)) (.object (.mk a f')) = true) := by
  refine ⟨?_, ?_, ?_⟩
  · intro x y
    simp [RcBindingMap.ptrEq]
  · intro m newAddr h
    constructor
    · simp [RcValue.beq, RcBindingMap.ptrEq, RcBindingMap.cloneAt, RcBindingMap.addr]
      intro hc
      exact absurd hc.symm h
    · rfl
  · intro a f f'
    simp [RcValue.beq, RcBindingMap.ptrEq, RcBindingMap.addr]

/-- Witness for the pointer-identity theorem at a concrete map and a fresh
address. -/
theorem bindingmap_partialeq_is_pointer_identity_witness :
    RcValue.beq (.object (.mk 0 [[("x", .mk true (.number 1))]]))
      (.object ((RcBindingMap.mk 0 [[("x", .mk true (.number 1))]]).cloneAt 1)) = false
    ∧ ((RcBindingMap.mk 0 [[("x", .mk true (.number 1))]]).cloneAt 1).maps
      = (RcBindingMap.mk 0 [[("x", .mk true (.number 1))]]).maps :=
  bindingmap_partialeq_is_pointer_identity.2.1 _ 1 (by decide)

/-! ## Claim C2 -/

/-- Claim C2 counterexample: with `f` already bound as the constant
`Number 1`, executing the function declaration statement `function f(){}`
does not fail with a `DoubleDefinitionError`: it succeeds with value
`Null` and silently replaces the existing binding by the new constant
`Subroutine` binding. -/
theorem function_redeclaration_cex :
    interpretStatement trivialEnv 1 (.functionStatement "f" [] [])
      (BindingMap.mk [("f", .mk false (.number 1))])
      = some (.ok (.null,
          BindingMap.mk
            [("f", .mk false (.subroutine (.mk (some 0) (.interpreted [] []))))]))
    ∧ (BindingMap.mk
          [("f", .mk false (.subroutine (.mk (some 0) (.interpreted [] []))))]).get "f"
      ≠ (BindingMap.mk [("f", .mk false (.number 1))]).get "f" := by
  constructor
  · rfl
  · intro h
    simp [BindingMap.get, BindingMap.entries, findEntry] at h

/-- Claim C2 amended: executing a function declaration statement always
succeeds with value `Null` and binds the name through `BindingMap::set`,
which inserts unconditionally — when the name is already bound in the
current scope, the existing binding is silently replaced by the new
constant `Subroutine` binding; there is no `DoubleDefinitionError` on this
path.  (The `% 256` reflects the `num_args as u8` cast in the source.) -/
theorem function_declaration_overwrites :
    ∀ (env : Nat → List Value → Except JabroniError Value) (fuel : Nat)
      (name : String) (params : List String) (body : List Stmt) (st : BindingMap),
    interpretStatement env (fuel + 1) (.functionStatement name params body) st
      = some (.ok (.null, st.set name (Binding.constant (.subroutine
          (.mk (some (params.length % 256)) (.interpreted params body))))))
    ∧ (st.set name (Binding.constant (.subroutine
          (.mk (some (params.length % 256)) (.interpreted params body))))).get name
      = .ok (Binding.constant (.subroutine
          (.mk (some (params.length % 256)) (.interpreted params body)))) := by
  intro env fuel name params body st
  exact ⟨rfl, BindingMap.get_set_self _ _ _⟩

/-! ## Claim C4 -/

/-- Claim C4: `Binding::set_value` fails with a `TypeError` when the new
value's variant tag differs from the tag of the stored value, and fails
with a `TypeError` when the binding is immutable even if the tags match;
only when the binding is mutable and the tags match does it replace the
stored value and succeed.  Consequently, after
`define_constant("FOO", Number(42))`, evaluating the assignment
`FOO=8` fails with a `TypeError`. -/
theorem binding_set_value_gate :
    (∀ (b : Binding) (v : Value), b.value.discriminant ≠ v.discriminant →
        b.setValue v = .error (.type "Type mismatch in binding assignment"))
    ∧ (∀ (b : Binding) (v : Value), b.value.discriminant = v.discriminant →
        b.mutable = false →
        b.setValue v
          = .error (.type "Cannot mutably access binding because it is constant"))
    ∧ (∀ (b : Binding) (v : Value), b.value.discriminant = v.discriminant →
        b.mutable = true → b.setValue v = .ok (.mk true v))
    ∧ Jabroni.empty.defineConstant "FOO" (.number 42)
        = .ok ⟨BindingMap.mk [("FOO", Binding.mk false (.number 42))]⟩
    ∧ interpretExpression trivialEnv 2
        (.assignment (.ident "FOO") "=" (.numericLit "8"))
        (BindingMap.mk [("FOO", Binding.mk false (.number 42))])
        = some (.error (.type "Cannot mutably access binding because it is constant")) := by
  refine ⟨?_, ?_, ?_, rfl, rfl⟩
  · intro b v h
    unfold Binding.setValue
    rw [if_pos h]
  · intro b v h1 h2
    unfold Binding.setValue
    rw [if_neg (by simp [h1]), if_pos h2]
  · intro b v h1 h2
    unfold Binding.setValue
    rw [if_neg (by simp [h1]), if_neg (by simp [h2]), h2]

/-- Witness for the `set_value` gate, at concrete bindings and values. -/
theorem binding_set_value_gate_witness :
    (Binding.mk true (.number 0)).setValue (.boolean true)
      = .error (.type "Type mismatch in binding assignment")
    ∧ (Binding.mk false (.number 0)).setValue (.number 5)
      = .error (.type "Cannot mutably access binding because it is constant")
    ∧ (Binding.mk true (.number 0)).setValue (.number 5) = .ok (.mk true (.number 5)) :=
  ⟨binding_set_value_gate.1 _ _ (by decide),
   binding_set_value_gate.2.1 _ _ rfl rfl,
   binding_set_value_gate.2.2.1 _ _ rfl rfl⟩

/-! ## Claim C6 -/

/-- Claim C6: for every ternary expression `c ? a : b`, evaluation fails
with a `TypeError` when the condition evaluates to a non-Boolean value;
when the condition evaluates to `Boolean(true)` the result is exactly the
evaluation of `a` in the post-condition state, and when it evaluates to
`Boolean(false)` exactly the evaluation of `b` — in each case the result
is independent of the unselected branch (it is universally quantified and
absent from the right-hand side), so the unselected subtree is never
evaluated and its side effects do not occur. -/
theorem ternary_short_circuit :
    (∀ (env : Nat → List Value → Except JabroniError Value) (fuel : Nat)
       (c a b : Expr) (st st' : BindingMap),
       interpretExpression env fuel c st = some (.ok (.boolean true, st')) →
       interpretExpression env (fuel + 1) (.ternary c a b) st
         = interpretExpression env fuel a st')
    ∧ (∀ (env : Nat → List Value → Except JabroniError Value) (fuel : Nat)
       (c a b : Expr) (st st' : BindingMap),
       interpretExpression env fuel c st = some (.ok (.boolean false, st')) →
       interpretExpression env (fuel + 1) (.ternary c a b) st
         = interpretExpression env fuel b st')
    ∧ (∀ (env : Nat → List Value → Except JabroniError Value) (fuel : Nat)
       (c a b : Expr) (st st' : BindingMap) (v : Value),
       interpretExpression env fuel c st = some (.ok (v, st')) →
       (∀ bv : Bool, v ≠ .boolean bv) →
       interpretExpression env (fuel + 1) (.ternary c a b) st
         = some (.error (.type "Ternary condition must be boolean"))) := by
  refine ⟨?_, ?_, ?_⟩
  · intro env fuel c a b st st' h
    have hr := interpretExpression_eq_ok.mp h
    have hstep : runI env (fuel + 1) (.expr (.ternary c a b) st)
        = runI env fuel (.expr a st') := by
      simp [runI, hr]
    unfold interpretExpression
    rw [hstep]
  · intro env fuel c a b st st' h
    have hr := interpretExpression_eq_ok.mp h
    have hstep : runI env (fuel + 1) (.expr (.ternary c a b) st)
        = runI env fuel (.expr b st') := by
      simp [runI, hr]
    unfold interpretExpression
    rw [hstep]
  · intro env fuel c a b st st' v h hv
    have hr := interpretExpression_eq_ok.mp h
    have hstep : runI env (fuel + 1) (.expr (.ternary c a b) st)
        = some (.error (.type "Ternary condition must be boolean")) := by
      cases v with
      | boolean bv => exact absurd rfl (hv bv)
      | number n => simp [runI, hr]
      | string s => simp [runI, hr]
      | object m => simp [runI, hr]
      | subroutine s => simp [runI, hr]
      | null => simp [runI, hr]
    unfold interpretExpression
    rw [hstep]

/-- Witness for the ternary theorem: a true condition selects the first
branch (here with an assignment expression as the never-evaluated second
branch), and a `Number` condition is a `TypeError`. -/
theorem ternary_short_circuit_witness :
    interpretExpression trivialEnv 2
      (.ternary (.booleanLit "true") .nullLit
        (.assignment (.ident "x") "=" (.numericLit "2"))) .empty
      = interpretExpression trivialEnv 1 .nullLit .empty
    ∧ interpretExpression trivialEnv 2
      (.ternary (.numericLit "1") .nullLit .nullLit) .empty
      = some (.error (.type "Ternary condition must be boolean")) :=
  ⟨ternary_short_circuit.1 trivialEnv 1 _ _ _ .empty .empty rfl,
   ternary_short_circuit.2.2 trivialEnv 1 _ _ _ .empty .empty (.number 1) rfl
     (fun bv h => by cases h)⟩

/-! ## Claim C1 -/

/-- Claim C1 counterexample: at the mismatched-tag pair `Number 4`,
`Boolean false`, the mode the evaluator uses for the `==` operator
(`allow_type_diff = false`, see `applyOperator`) does not yield
`Boolean(false)`: it fails with a `TypeError`; the mode that yields
`Boolean(false)` is the one the evaluator uses for `===`.  Shown both at
`Value::compare` directly and through the evaluator on the expressions
`4==false` and `4===false`. -/
theorem compare_mode_claim_cex :
    Value.compare (.number 4) (.boolean false) false
      = .error (.type "Cannot compare between values of different types")
    ∧ Value.compare (.number 4) (.boolean false) false ≠ .ok (.boolean false)
    ∧ Value.compare (.number 4) (.boolean false) true = .ok (.boolean false)
    ∧ interpretExpression trivialEnv 3
        (.chain (.numericLit "4") [("==", .booleanLit "false")]) .empty
      = some (.error (.type "Cannot compare between values of different types"))
    ∧ interpretExpression trivialEnv 3
        (.chain (.numericLit "4") [("===", .booleanLit "false")]) .empty
      = some (.ok (.boolean false, .empty)) := by
  refine ⟨rfl, ?_, rfl, rfl, rfl⟩
  intro h
  exact nomatch h

/-- Claim C1 amended: for every pair of `Value`s, `Value::compare` in
loose mode (`allow_type_diff` set — the mode the evaluator uses for the
`===` operator) with mismatched variant tags yields `Boolean(false)` and
succeeds; in strict mode (`allow_type_diff` unset — used for `==`) a tag
mismatch fails with a `TypeError`; comparing a `Null` operand in the
strict (`==`) mode fails with a `TypeError`; and in every remaining
same-tag comparable case the receiver becomes `Boolean` of the payload
equality.  (The claim as written attaches the two modes to the opposite
operators.) -/
theorem compare_modes :
    (∀ v w : Value, applyOperator "==" v w = some (v.compare w false)
        ∧ applyOperator "===" v w = some (v.compare w true))
    ∧ (∀ v w : Value, v.discriminant ≠ w.discriminant →
        v.compare w true = .ok (.boolean false)
        ∧ v.compare w false
            = .error (.type "Cannot compare between values of different types"))
    ∧ (∀ v : Value, ∃ msg, v.compare .null false = .error (.type msg))
    ∧ (∀ a b : Int, (Value.number a).compare (.number b) false = .ok (.boolean (a == b))
        ∧ (Value.number a).compare (.number b) true = .ok (.boolean (a == b)))
    ∧ (∀ a b : Bool, (Value.boolean a).compare (.boolean b) false = .ok (.boolean (a == b))
        ∧ (Value.boolean a).compare (.boolean b) true = .ok (.boolean (a == b)))
    ∧ (∀ a b : String, (Value.string a).compare (.string b) false = .ok (.boolean (a == b))
        ∧ (Value.string a).compare (.string b) true = .ok (.boolean (a == b)))
    ∧ Value.null.compare .null true = .ok (.boolean true) := by
  refine ⟨?_, ?_, ?_, fun a b => ⟨rfl, rfl⟩, fun a b => ⟨rfl, rfl⟩,
    fun a b => ⟨rfl, rfl⟩, rfl⟩
  · intro v w
    constructor
    · rfl
    · unfold applyOperator
      rw [if_neg (by decide), if_pos rfl]
  · intro v w h
    exact ⟨by simp [Value.compare, h], by simp [Value.compare, h]⟩
  · intro v
    cases v <;> exact ⟨_, rfl⟩

/-- Witness for the compare-modes theorem at concrete values. -/
theorem compare_modes_witness :
    Value.compare (.number 1) (.string "a") true = .ok (.boolean false)
    ∧ Value.compare (.number 1) (.string "a") false
        = .error (.type "Cannot compare between values of different types")
    ∧ (∃ msg, Value.compare (.number 7) .null false = .error (.type msg)) :=
  ⟨(compare_modes.2.1 (.number 1) (.string "a") (by decide)).1,
   (compare_modes.2.1 (.number 1) (.string "a") (by decide)).2,
   compare_modes.2.2.1 (.number 7)⟩

/-! ## Claim C3 -/

/-- Claim C3: invoking an interpreted function evaluates its body in a
brand-new scope containing exactly the declared parameters bound as
constants to the already-evaluated argument values: the callback runs the
body as a script against `paramBindings params args`, a fresh state in
which every declared parameter resolves to a constant holding its
argument and every other identifier fails with a `ReferenceError`; in
particular a body that reads an identifier not among the parameters (such
as one bound only in the caller's scope) fails with a `ReferenceError`,
for every environment and every caller. -/
theorem interpreted_function_isolation :
    (∀ (env : Nat → List Value → Except JabroniError Value) (fuel : Nat)
       (params : List String) (body : List Stmt) (args : List Value),
       args.length = params.length →
       functionCallback env (fuel + 1) params body args
         = Option.map (Except.map Prod.fst)
             (runScript env fuel body (paramBindings params args)))
    ∧ (∀ (params : List String) (args : List Value) (x : String), x ∉ params →
        (paramBindings params args).get x
          = .error (.reference (x ++ " does not exist")))
    ∧ (∀ (params : List String) (args : List Value) (p : String) (a : Value),
        params.Nodup → args.length = params.length → (p, a) ∈ params.zip args →
        (paramBindings params args).get p = .ok (Binding.constant a))
    ∧ (∀ (env : Nat → List Value → Except JabroniError Value) (fuel : Nat)
       (params : List String) (args : List Value) (x : String),
       x ∉ params → args.length = params.length →
       functionCallback env (fuel + 4) params [.returnStatement (.ident x)] args
         = some (.error (.reference (x ++ " does not exist")))) := by
  refine ⟨?_, paramBindings_get_not_mem, paramBindings_get_mem, ?_⟩
  · intro env fuel params body args hlen
    unfold functionCallback runScript
    have hcond : ¬ args.length ≠ params.length := by simp [hlen]
    rcases hr : runI env fuel (.stmtList body .null (paramBindings params args))
      with _ | r
    · simp [runI, hcond, hr]
    · rcases r with er | o
      · simp [runI, hcond, hr, Except.map]
      · rcases o with ⟨w, stw⟩ | ⟨vs, stv⟩ | w <;> simp [runI, hcond, hr, Except.map]
  · intro env fuel params args x hx hlen
    have h1 : (paramBindings params args).get x
        = .error (.reference (x ++ " does not exist")) :=
      paramBindings_get_not_mem _ _ _ hx
    unfold functionCallback
    simp [runI, hlen, h1]

/-- Witness for the isolation theorem: a one-parameter function whose body
reads the foreign identifier `y` fails with a `ReferenceError`, the
parameter frame resolves the parameter and rejects the foreign name. -/
theorem interpreted_function_isolation_witness :
    functionCallback trivialEnv 5 ["x"] [.returnStatement (.ident "y")] [.number 3]
      = some (.error (.reference ("y" ++ " does not exist")))
    ∧ (paramBindings ["x"] [.number 3]).get "y"
      = .error (.reference ("y" ++ " does not exist"))
    ∧ (paramBindings ["x"] [.number 3]).get "x" = .ok (Binding.constant (.number 3))
    ∧ functionCallback trivialEnv 1 ["x"] [] [.number 3]
      = Option.map (Except.map Prod.fst)
          (runScript trivialEnv 0 [] (paramBindings ["x"] [.number 3])) :=
  ⟨interpreted_function_isolation.2.2.2 trivialEnv 1 ["x"] [.number 3] "y"
     (by decide) rfl,
   interpreted_function_isolation.2.1 ["x"] [.number 3] "y" (by decide),
   interpreted_function_isolation.2.2.1 ["x"] [.number 3] "x" (.number 3)
     (by decide) rfl (List.mem_singleton.mpr rfl),
   interpreted_function_isolation.1 trivialEnv 0 ["x"] [] [.number 3] rfl⟩

/-! ## Lemmas about `unquote` -/

theorem charUtf8Size_pos (c : Char) : 1 ≤ charUtf8Size c := by
  unfold charUtf8Size
  split_ifs <;> omega

theorem utf8Length_nil : utf8Length [] = 0 := rfl

theorem utf8Length_cons (c : Char) (l : List Char) :
    utf8Length (c :: l) = charUtf8Size c + utf8Length l := by
  simp [utf8Length]

theorem utf8Length_append (l1 l2 : List Char) :
    utf8Length (l1 ++ l2) = utf8Length l1 + utf8Length l2 := by
  simp [utf8Length]

theorem one_le_utf8Length {l : List Char} (h : l ≠ []) : 1 ≤ utf8Length l := by
  cases l with
  | nil => exact absurd rfl h
  | cons c t =>
    rw [utf8Length_cons]
    have := charUtf8Size_pos c
    omega

theorem escapeContentChar_ne_nil (q c : Char) : escapeContentChar q c ≠ [] := by
  unfold escapeContentChar
  split_ifs <;> simp

theorem escapeBody_ne_nil (q c : Char) (cs : List Char) :
    escapeBody q (c :: cs) ≠ [] := by
  rw [escapeBody]
  exact fun h => escapeContentChar_ne_nil q c (List.append_eq_nil.mp h).1

theorem unquoteLoop_backslash (q : Char) (rest out : List Char) :
    unquoteLoop q ('\\' :: rest) false out = unquoteLoop q rest true out := by
  rw [unquoteLoop]
  simp

theorem unquoteLoop_escape (q : Char) {c e : Char}
    (he : escapeCharResult c = some e) (rest out : List Char) :
    unquoteLoop q (c :: rest) true out = unquoteLoop q rest false (out ++ [e]) := by
  rw [unquoteLoop]
  simp [he]

theorem unquoteLoop_escape_none (q : Char) {c : Char}
    (hc : escapeCharResult c = none) (rest out : List Char) :
    unquoteLoop q (c :: rest) true out
      = .error (.parse "Found unknown escaped sequence while parsing string") := by
  rw [unquoteLoop]
  simp [hc]

theorem unquoteLoop_plain {q c : Char} (hc1 : c ≠ '\\') (hc2 : c ≠ q)
    (rest out : List Char) :
    unquoteLoop q (c :: rest) false out = unquoteLoop q rest false (out ++ [c]) := by
  rw [unquoteLoop]
  simp [hc1, hc2]

theorem unquoteLoop_terminator {q : Char} (hqb : q ≠ '\\') (rest out : List Char) :
    unquoteLoop q (q :: rest) false out
      = if rest.isEmpty then .ok out
        else .error (.parse "While parsing string, met terminator before end of string") := by
  rw [unquoteLoop]
  simp [hqb]

theorem quote_ne_backslash {q : Char} (hq : q = '"' ∨ q = '\'') : q ≠ '\\' := by
  rcases hq with rfl | rfl <;> decide

theorem quote_escapes_to_self {q : Char} (hq : q = '"' ∨ q = '\'') :
    escapeCharResult q = some q := by
  rcases hq with rfl | rfl <;> rfl

theorem unquoteLoop_escapeContentChar {q : Char} (hq : q = '"' ∨ q = '\'')
    (c : Char) (rest out : List Char) :
    unquoteLoop q (escapeContentChar q c ++ rest) false out
      = unquoteLoop q rest false (out ++ [c]) := by
  have hqb : q ≠ '\\' := quote_ne_backslash hq
  unfold escapeContentChar
  by_cases h1 : c = '\\' ∨ c = q
  · rw [if_pos h1]
    have hesc : escapeCharResult c = some c := by
      rcases h1 with rfl | rfl
      · rfl
      · exact quote_escapes_to_self hq
    show unquoteLoop q ('\\' :: c :: rest) false out = _
    rw [unquoteLoop_backslash, unquoteLoop_escape q hesc]
  · rw [if_neg h1]
    push_neg at h1
    by_cases h2 : c = '\n'
    · subst h2
      rw [if_pos rfl]
      show unquoteLoop q ('\\' :: 'n' :: rest) false out = _
      rw [unquoteLoop_backslash, unquoteLoop_escape q (show escapeCharResult 'n' = some '\n' from rfl)]
    · rw [if_neg h2]
      by_cases h3 : c = '\t'
      · subst h3
        rw [if_pos rfl]
        show unquoteLoop q ('\\' :: 't' :: rest) false out = _
        rw [unquoteLoop_backslash, unquoteLoop_escape q (show escapeCharResult 't' = some '\t' from rfl)]
      · rw [if_neg h3]
        by_cases h4 : c = '\r'
        · subst h4
          rw [if_pos rfl]
          show unquoteLoop q ('\\' :: 'r' :: rest) false out = _
          rw [unquoteLoop_backslash, unquoteLoop_escape q (show escapeCharResult 'r' = some '\r' from rfl)]
        · rw [if_neg h4]
          show unquoteLoop q (c :: rest) false out = _
          rw [unquoteLoop_plain h1.1 h1.2]

theorem unquoteLoop_escapeBody {q : Char} (hq : q = '"' ∨ q = '\'')
    (content : List Char) : ∀ rest out : List Char,
    unquoteLoop q (escapeBody q content ++ rest) false out
      = unquoteLoop q rest false (out ++ content) := by
  induction content with
  | nil => intro rest out; simp [escapeBody]
  | cons c cs ih =>
    intro rest out
    rw [escapeBody, List.append_assoc, unquoteLoop_escapeContentChar hq, ih]
    simp

theorem unquote_quoted {q : Char} (hq : q = '"' ∨ q = '\'') (content : List Char) :
    unquote (q :: (escapeBody q content ++ [q])) = .ok content := by
  have hqb : q ≠ '\\' := quote_ne_backslash hq
  have hterm : ¬(q ≠ '"' ∧ q ≠ '\'') := by
    rcases hq with rfl | rfl <;> simp
  have hlen : ¬ utf8Length (q :: (escapeBody q content ++ [q])) < 2 := by
    rw [utf8Length_cons, utf8Length_append, utf8Length_cons, utf8Length_nil]
    have h1 := charUtf8Size_pos q
    omega
  have hred : unquote (q :: (escapeBody q content ++ [q]))
      = unquoteLoop q (escapeBody q content ++ [q]) false [] := by
    unfold unquote
    rw [if_neg hlen]
    exact if_neg hterm
  rw [hred, unquoteLoop_escapeBody hq, unquoteLoop_terminator hqb]
  simp

theorem unquote_short_bytes {s : List Char} (h : utf8Length s < 2) :
    unquote s = .error (.parse "Attempted to unquote an already unquoted string") := by
  unfold unquote
  rw [if_pos h]

theorem unquote_first_not_quote {c : Char} (s : List Char)
    (h1 : c ≠ '"') (h2 : c ≠ '\'') :
    unquote (c :: s)
      = .error (.parse "Attempted to unquote an already unquoted string") := by
  by_cases h : utf8Length (c :: s) < 2
  · exact unquote_short_bytes h
  · unfold unquote
    rw [if_neg h]
    exact if_pos ⟨h1, h2⟩

theorem unquote_unterminated {q : Char} (hq : q = '"' ∨ q = '\'')
    (content : List Char) : isParseError (unquote (q :: escapeBody q content)) := by
  have hqb : q ≠ '\\' := quote_ne_backslash hq
  cases content with
  | nil =>
    refine ⟨"Attempted to unquote an already unquoted string", unquote_short_bytes ?_⟩
    have : charUtf8Size q = 1 := by rcases hq with rfl | rfl <;> rfl
    simp [escapeBody, utf8Length_cons, utf8Length_nil, this]
  | cons c cs =>
    have hterm : ¬(q ≠ '"' ∧ q ≠ '\'') := by
      rcases hq with rfl | rfl <;> simp
    have hlen : ¬ utf8Length (q :: escapeBody q (c :: cs)) < 2 := by
      rw [utf8Length_cons]
      have h1 := charUtf8Size_pos q
      have h2 := one_le_utf8Length (escapeBody_ne_nil q c cs)
      omega
    have hred : unquote (q :: escapeBody q (c :: cs))
        = unquoteLoop q (escapeBody q (c :: cs)) false [] := by
      unfold unquote
      rw [if_neg hlen]
      exact if_neg hterm
    refine ⟨"String parsing unexpectedly cut short", ?_⟩
    rw [hred, ← List.append_nil (escapeBody q (c :: cs)),
      unquoteLoop_escapeBody hq]
    rfl

theorem unquote_trailing {q : Char} (hq : q = '"' ∨ q = '\'')
    (content : List Char) (r : Char) (rs : List Char) :
    isParseError (unquote (q :: (escapeBody q content ++ q :: r :: rs))) := by
  have hqb : q ≠ '\\' := quote_ne_backslash hq
  have hterm : ¬(q ≠ '"' ∧ q ≠ '\'') := by
    rcases hq with rfl | rfl <;> simp
  have hsz : charUtf8Size q = 1 := by rcases hq with rfl | rfl <;> rfl
  have hlen : ¬ utf8Length (q :: (escapeBody q content ++ q :: r :: rs)) < 2 := by
    rw [utf8Length_cons, utf8Length_append, utf8Length_cons]
    omega
  have hred : unquote (q :: (escapeBody q content ++ q :: r :: rs))
      = unquoteLoop q (escapeBody q content ++ q :: r :: rs) false [] := by
    unfold unquote
    rw [if_neg hlen]
    exact if_neg hterm
  refine ⟨"While parsing string, met terminator before end of string", ?_⟩
  rw [hred, unquoteLoop_escapeBody hq, unquoteLoop_terminator hqb]
  rfl

theorem unquote_unknown_escape {q : Char} (hq : q = '"' ∨ q = '\'')
    (p : List Char) {c : Char} (hc : escapeCharResult c = none)
    (suffix : List Char) :
    isParseError (unquote (q :: (escapeBody q p ++ '\\' :: c :: suffix))) := by
  have hterm : ¬(q ≠ '"' ∧ q ≠ '\'') := by
    rcases hq with rfl | rfl <;> simp
  have hlen : ¬ utf8Length (q :: (escapeBody q p ++ '\\' :: c :: suffix)) < 2 := by
    rw [utf8Length_cons, utf8Length_append, utf8Length_cons]
    have h1 := charUtf8Size_pos q
    have h2 := charUtf8Size_pos '\\'
    omega
  have hred : unquote (q :: (escapeBody q p ++ '\\' :: c :: suffix))
      = unquoteLoop q (escapeBody q p ++ '\\' :: c :: suffix) false [] := by
    unfold unquote
    rw [if_neg hlen]
    exact if_neg hterm
  refine ⟨"Found unknown escaped sequence while parsing string", ?_⟩
  rw [hred, unquoteLoop_escapeBody hq, unquoteLoop_backslash,
    unquoteLoop_escape_none q hc]

theorem unquote_short_chars {s : List Char} (h : s.length < 2) :
    isParseError (unquote s) := by
  match s, h with
  | [], _ =>
    exact ⟨_, unquote_short_bytes (by decide)⟩
  | [c], _ =>
    by_cases h1 : c = '"'
    · subst h1
      exact ⟨_, unquote_short_bytes (by decide)⟩
    · by_cases h2 : c = '\''
      · subst h2
        exact ⟨_, unquote_short_bytes (by decide)⟩
      · exact ⟨_, unquote_first_not_quote [] h1 h2⟩

/-! ## Claim C8 -/

/-- Claim C8: `unquote` returns the content of a string delimited by
matching single or double quotes with the escape sequences `\n`, `\t`,
`\r`, `\\`, `\'`, `\"` translated — in particular
`unquote("'\\''") = "'"` and `unquote("\"Hello!\"") = "Hello!"` — and it
fails with a `ParseError` on input shorter than two characters, on a first
character that is not a quote, on an unterminated string, on text
following the closing terminator, and on an unknown escape sequence.  The
positive direction is stated for every content rendered by the
specification-side `escapeBody`, the failures universally over the
corresponding input shapes. -/
theorem unquote_contract :
    unquote ['\'', '\\', '\'', '\''] = .ok ['\'']
    ∧ unquote ['"', 'H', 'e', 'l', 'l', 'o', '!', '"']
      = .ok ['H', 'e', 'l', 'l', 'o', '!']
    ∧ (∀ (q : Char) (content : List Char), q = '"' ∨ q = '\'' →
        unquote (q :: (escapeBody q content ++ [q])) = .ok content)
    ∧ (∀ s : List Char, s.length < 2 → isParseError (unquote s))
    ∧ (∀ (c : Char) (s : List Char), c ≠ '"' → c ≠ '\'' →
        isParseError (unquote (c :: s)))
    ∧ (∀ (q : Char) (content : List Char), q = '"' ∨ q = '\'' →
        isParseError (unquote (q :: escapeBody q content)))
    ∧ (∀ (q : Char) (content : List Char) (r : Char) (rs : List Char),
        q = '"' ∨ q = '\'' →
        isParseError (unquote (q :: (escapeBody q content ++ q :: r :: rs))))
    ∧ (∀ (q : Char) (p : List Char) (c : Char) (suffix : List Char),
        q = '"' ∨ q = '\'' → escapeCharResult c = none →
        isParseError (unquote (q :: (escapeBody q p ++ '\\' :: c :: suffix)))) := by
  refine ⟨rfl, rfl, ?_, fun s h => unquote_short_chars h, ?_, ?_, ?_, ?_⟩
  · intro q content hq
    exact unquote_quoted hq content
  · intro c s h1 h2
    exact ⟨_, unquote_first_not_quote s h1 h2⟩
  · intro q content hq
    exact unquote_unterminated hq content
  · intro q content r rs hq
    exact unquote_trailing hq content r rs
  · intro q p c suffix hq hc
    exact unquote_unknown_escape hq p hc suffix

/-- Witness for the `unquote` contract at concrete inputs: round trip of
`"a\nb"` in double quotes, a too-short input, a non-quote first character,
an unterminated literal, trailing text, and the unknown escape `\x`. -/
theorem unquote_contract_witness :
    unquote ('"' :: (escapeBody '"' ['a', '\n', 'b'] ++ ['"'])) = .ok ['a', '\n', 'b']
    ∧ isParseError (unquote ['x'])
    ∧ isParseError (unquote ['x', 'y', 'z'])
    ∧ isParseError (unquote ('"' :: escapeBody '"' ['a']))
    ∧ isParseError (unquote ('"' :: (escapeBody '"' ['a'] ++ '"' :: 'z' :: [])))
    ∧ isParseError (unquote ('"' :: (escapeBody '"' [] ++ '\\' :: 'x' :: []))) :=
  ⟨unquote_contract.2.2.1 '"' ['a', '\n', 'b'] (Or.inl rfl),
   unquote_contract.2.2.2.1 ['x'] (by decide),
   unquote_contract.2.2.2.2.1 'x' ['y', 'z'] (by decide) (by decide),
   unquote_contract.2.2.2.2.2.1 '"' ['a'] (Or.inl rfl),
   unquote_contract.2.2.2.2.2.2.1 '"' ['a'] 'z' [] (Or.inl rfl),
   unquote_contract.2.2.2.2.2.2.2 '"' [] 'x' [] (Or.inl rfl) rfl⟩

/-! ## Decimal round-trip lemmas -/

theorem digitVal_digitChar {d : Nat} (h : d < 10) :
    digitVal (Nat.digitChar d) = some d := by
  interval_cases d <;> decide

theorem parseDigitsAux_append (xs ys : List Char) (acc : Nat) :
    parseDigitsAux (xs ++ ys) acc
      = (parseDigitsAux xs acc).bind (parseDigitsAux ys) := by
  induction xs generalizing acc with
  | nil => rfl
  | cons c rest ih =>
    rw [List.cons_append, parseDigitsAux, parseDigitsAux]
    cases digitVal c with
    | none => rfl
    | some d => exact ih _

theorem natDigitsAux_parse : ∀ (fuel n acc : Nat), n < 10 ^ fuel →
    parseDigitsAux (natDigitsAux fuel n) acc
      = some (acc * 10 ^ (natDigitsAux fuel n).length + n) := by
  intro fuel
  induction fuel with
  | zero =>
    intro n acc h
    have hn : n = 0 := by omega
    subst hn
    simp [natDigitsAux, parseDigitsAux]
  | succ f ih =>
    intro n acc h
    by_cases hn : n < 10
    · rw [natDigitsAux, if_pos hn]
      simp [parseDigitsAux, digitVal_digitChar hn]
      omega
    · rw [natDigitsAux, if_neg hn, parseDigitsAux_append]
      have hdiv : n / 10 < 10 ^ f := by
        rw [Nat.div_lt_iff_lt_mul (by norm_num)]
        calc n < 10 ^ (f + 1) := h
          _ = 10 ^ f * 10 := by rw [pow_succ]
      rw [ih _ acc hdiv, Option.some_bind]
      have hmod : n % 10 < 10 := Nat.mod_lt _ (by norm_num)
      rw [show parseDigitsAux [Nat.digitChar (n % 10)]
            (acc * 10 ^ (natDigitsAux f (n / 10)).length + n / 10)
          = some (10 * (acc * 10 ^ (natDigitsAux f (n / 10)).length + n / 10) + n % 10) by
        simp [parseDigitsAux, digitVal_digitChar hmod]]
      rw [List.length_append, List.length_singleton, pow_succ]
      refine congrArg some ?_
      calc 10 * (acc * 10 ^ (natDigitsAux f (n / 10)).length + n / 10) + n % 10
          = acc * (10 ^ (natDigitsAux f (n / 10)).length * 10)
            + (10 * (n / 10) + n % 10) := by ring
        _ = acc * (10 ^ (natDigitsAux f (n / 10)).length * 10) + n := by
            rw [Nat.div_add_mod]

theorem natDigits_parse (n : Nat) : parseDigitsAux (natDigits n) 0 = some n := by
  have hfuel : n < 10 ^ (n + 1) := by
    calc n < 10 ^ n := Nat.lt_pow_self (by norm_num) n
      _ ≤ 10 ^ (n + 1) := Nat.pow_le_pow_right (by norm_num) (Nat.le_succ n)
  rw [natDigits, natDigitsAux_parse _ _ 0 hfuel]
  simp

theorem natDigitsAux_digits : ∀ (fuel n : Nat) (c : Char),
    c ∈ natDigitsAux fuel n → ∃ d, d < 10 ∧ c = Nat.digitChar d := by
  intro fuel
  induction fuel with
  | zero => intro n c hc; cases hc
  | succ f ih =>
    intro n c hc
    rw [natDigitsAux] at hc
    by_cases hn : n < 10
    · rw [if_pos hn] at hc
      rcases List.mem_singleton.mp hc with rfl
      exact ⟨n, hn, rfl⟩
    · rw [if_neg hn] at hc
      rcases List.mem_append.mp hc with h | h
      · exact ih _ _ h
      · rcases List.mem_singleton.mp h with rfl
        exact ⟨n % 10, Nat.mod_lt _ (by norm_num), rfl⟩

theorem natDigits_ne_nil (n : Nat) : natDigits n ≠ [] := by
  rw [natDigits, natDigitsAux]
  by_cases hn : n < 10
  · rw [if_pos hn]
    simp
  · rw [if_neg hn]
    simp

theorem parseSigned_natDigits {sign : Int} {m : Nat} (v : Int) (hv : v = sign * m)
    (h1 : -(2 ^ 31) ≤ v) (h2 : v < 2 ^ 31) :
    parseSigned sign (natDigits m) = .ok v := by
  unfold parseSigned
  rw [if_neg (natDigits_ne_nil m), natDigits_parse]
  have : (if -(2 ^ 31) ≤ sign * (m : Int) ∧ sign * (m : Int) < 2 ^ 31 then
        (Except.ok (sign * (m : Int)) : Except JabroniError Int)
      else .error (.parse "number too large to fit in target type")) = .ok v := by
    rw [← hv, if_pos ⟨h1, h2⟩]
  exact this

theorem parseI32_mk_neg (l : List Char) :
    parseI32 (String.mk ('-' :: l)) = parseSigned (-1) l := by
  show (if ('-' : Char) = '-' then parseSigned (-1) l
      else if ('-' : Char) = '+' then parseSigned 1 l
      else parseSigned 1 ('-' :: l)) = parseSigned (-1) l
  rw [if_pos rfl]

theorem parseI32_mk_of_head_digit {c : Char} (t : List Char)
    (h1 : c ≠ '-') (h2 : c ≠ '+') :
    parseI32 (String.mk (c :: t)) = parseSigned 1 (c :: t) := by
  show (if c = '-' then parseSigned (-1) t
      else if c = '+' then parseSigned 1 t
      else parseSigned 1 (c :: t)) = parseSigned 1 (c :: t)
  rw [if_neg h1, if_neg h2]

theorem parseI32_intDecimal {a : Int} (h1 : -(2 ^ 31) ≤ a) (h2 : a < 2 ^ 31) :
    parseI32 (intDecimal a) = .ok a := by
  unfold intDecimal
  by_cases ha : a < 0
  · rw [if_pos ha, parseI32_mk_neg]
    refine parseSigned_natDigits a ?_ h1 h2
    have habs : ((a.natAbs : Int)) = -a := Int.ofNat_natAbs_of_nonpos (le_of_lt ha)
    rw [habs]
    ring
  · rw [if_neg ha]
    obtain ⟨c, t, hct⟩ := List.exists_cons_of_ne_nil (natDigits_ne_nil a.natAbs)
    obtain ⟨d, hd, hcd⟩ :=
      natDigitsAux_digits _ _ c (hct ▸ List.mem_cons_self c t)
    have hc1 : c ≠ '-' := by subst hcd; interval_cases d <;> decide
    have hc2 : c ≠ '+' := by subst hcd; interval_cases d <;> decide
    rw [hct, parseI32_mk_of_head_digit t hc1 hc2, ← hct]
    refine parseSigned_natDigits a ?_ h1 h2
    push_neg at ha
    rw [Int.natAbs_of_nonneg ha]
    ring

theorem fromNumericLiteral_intDecimal {a : Int} (h1 : -(2 ^ 31) ≤ a)
    (h2 : a < 2 ^ 31) :
    Value.fromNumericLiteral (intDecimal a) = .ok (.number a) := by
  unfold Value.fromNumericLiteral
  rw [parseI32_intDecimal h1 h2]

/-! ## Claim C7 -/

/-- Claim C7 counterexample: the claim quantifies over all mathematical
integers, but `Number` is a fixed-width `i32`.  At a = 2^31 and b = 0 the
decimal text of a is "2147483648", whose literal does not parse
(`ParseError`), so evaluating `2147483648+0` errors instead of returning
`Number(2^31)`; and at a = 2147483647, b = 1 both literals parse but the
addition wraps to -2147483648 ≠ 2^31. -/
theorem run_arithmetic_universal_cex :
    intDecimal (2 ^ 31) = "2147483648"
    ∧ Value.fromNumericLiteral "2147483648"
      = .error (.parse "number too large to fit in target type")
    ∧ interpretExpression trivialEnv 3
        (.chain (.numericLit "2147483648") [("+", .numericLit "0")]) .empty
      = some (.error (.parse "number too large to fit in target type"))
    ∧ interpretExpression trivialEnv 3
        (.chain (.numericLit "2147483647") [("+", .numericLit "1")]) .empty
      = some (.ok (.number (-2147483648), .empty))
    ∧ (-2147483648 : Int) ≠ 2147483647 + 1 := by
  refine ⟨?_, rfl, rfl, rfl, by decide⟩
  rfl

/-- Claim C7 amended: for all integers a and b representable in `i32`
(that is, in [-2^31, 2^31)) whose sum (respectively difference, product)
is also representable, evaluating the chain expression whose operands
carry the decimal text of a and b under `+` (respectively `-`, `*`)
returns `Number` of the exact mathematical result — the universal claim
over all mathematical integers fails at the `i32` bounds. -/
theorem run_arithmetic_exact :
    ∀ (env : Nat → List Value → Except JabroniError Value) (fuel : Nat)
      (st : BindingMap) (a b : Int),
      -(2 ^ 31) ≤ a → a < 2 ^ 31 → -(2 ^ 31) ≤ b → b < 2 ^ 31 →
      ((-(2 ^ 31) ≤ a + b → a + b < 2 ^ 31 →
        interpretExpression env (fuel + 3)
          (.chain (.numericLit (intDecimal a)) [("+", .numericLit (intDecimal b))]) st
          = some (.ok (.number (a + b), st)))
      ∧ (-(2 ^ 31) ≤ a - b → a - b < 2 ^ 31 →
        interpretExpression env (fuel + 3)
          (.chain (.numericLit (intDecimal a)) [("-", .numericLit (intDecimal b))]) st
          = some (.ok (.number (a - b), st)))
      ∧ (-(2 ^ 31) ≤ a * b → a * b < 2 ^ 31 →
        interpretExpression env (fuel + 3)
          (.chain (.numericLit (intDecimal a)) [("*", .numericLit (intDecimal b))]) st
          = some (.ok (.number (a * b), st)))) := by
  intro env fuel st a b ha1 ha2 hb1 hb2
  have hpa := fromNumericLiteral_intDecimal ha1 ha2
  have hpb := fromNumericLiteral_intDecimal hb1 hb2
  refine ⟨?_, ?_, ?_⟩ <;> intro hs1 hs2
  · have hstep : runI env (fuel + 3)
        (.expr (.chain (.numericLit (intDecimal a))
          [("+", .numericLit (intDecimal b))]) st)
        = some (.ok (.value (.number (a + b)) st)) := by
      simp [runI, hpa, hpb, applyOperator, Value.add, Value.unwrapIntoNumber,
        i32wrap_eq_self hs1 hs2]
    unfold interpretExpression
    rw [hstep]
  · have hstep : runI env (fuel + 3)
        (.expr (.chain (.numericLit (intDecimal a))
          [("-", .numericLit (intDecimal b))]) st)
        = some (.ok (.value (.number (a - b)) st)) := by
      simp [runI, hpa, hpb, applyOperator, Value.subtract, Value.unwrapIntoNumber,
        i32wrap_eq_self hs1 hs2]
    unfold interpretExpression
    rw [hstep]
  · have hstep : runI env (fuel + 3)
        (.expr (.chain (.numericLit (intDecimal a))
          [("*", .numericLit (intDecimal b))]) st)
        = some (.ok (.value (.number (a * b)) st)) := by
      simp [runI, hpa, hpb, applyOperator, Value.multiply, Value.unwrapIntoNumber,
        i32wrap_eq_self hs1 hs2]
    unfold interpretExpression
    rw [hstep]

/-- Witness for the exact-arithmetic theorem at a = 20, b = 3. -/
theorem run_arithmetic_exact_witness :
    interpretExpression trivialEnv 3
      (.chain (.numericLit (intDecimal 20)) [("+", .numericLit (intDecimal 3))])
      .empty = some (.ok (.number 23, .empty))
    ∧ interpretExpression trivialEnv 3
      (.chain (.numericLit (intDecimal 20)) [("-", .numericLit (intDecimal 3))])
      .empty = some (.ok (.number 17, .empty))
    ∧ interpretExpression trivialEnv 3
      (.chain (.numericLit (intDecimal 20)) [("*", .numericLit (intDecimal 3))])
      .empty = some (.ok (.number 60, .empty)) :=
  ⟨(run_arithmetic_exact trivialEnv 0 .empty 20 3 (by decide) (by decide)
      (by decide) (by decide)).1 (by decide) (by decide),
   (run_arithmetic_exact trivialEnv 0 .empty 20 3 (by decide) (by decide)
      (by decide) (by decide)).2.1 (by decide) (by decide),
   (run_arithmetic_exact trivialEnv 0 .empty 20 3 (by decide) (by decide)
      (by decide) (by decide)).2.2 (by decide) (by decide)⟩
